import Mathlib

/-!
Shallow embedding of the photo comparison application (src/App.tsx).

The embedding models:
- the reply extraction and JSON parsing performed by handleSubmit,
- the submission state machine (selected images, stored result, loading
  flag, snackbar notification),
- the canvas overlay renderer drawDifferences.

JavaScript strings are modelled as lists of characters, JavaScript
numbers as exact rationals, and the mutable canvas as a record holding
its dimensions together with the list of paint operations performed
since the last reset.
-/

/-- The opening curly bracket character. -/
def lbrace : Char := Char.ofNat 123

/-- The closing curly bracket character. -/
def rbrace : Char := Char.ofNat 125

/-- JS String.prototype.indexOf restricted to a single character,
returning the index of the first occurrence, as an Option. -/
def firstIdx (c : Char) : List Char → Option Nat
  | [] => none
  | a :: as => if a = c then some 0 else (firstIdx c as).map (· + 1)

/-- JS String.prototype.indexOf: index of the first occurrence or -1. -/
def jsIndexOf (c : Char) (s : List Char) : Int :=
  match firstIdx c s with
  | none => -1
  | some n => (n : Int)

/-- Index of the last occurrence of a character, as an Option. -/
def lastIdx (c : Char) (s : List Char) : Option Nat :=
  (firstIdx c s.reverse).map (fun n => s.length - 1 - n)

/-- JS String.prototype.lastIndexOf: index of the last occurrence or -1. -/
def jsLastIndexOf (c : Char) (s : List Char) : Int :=
  match lastIdx c s with
  | none => -1
  | some n => (n : Int)

/-- JS String.prototype.substring: negative arguments clamp to zero,
arguments beyond the length clamp to the length, and the two arguments
are swapped when the first is larger than the second. -/
def jsSubstring (s : List Char) (a b : Int) : List Char :=
  let len := s.length
  let a2 := min a.toNat len
  let b2 := min b.toNat len
  (s.drop (min a2 b2)).take (max a2 b2 - min a2 b2)

/-- The reply extraction of handleSubmit (App.tsx line 156):
text.substring(text.indexOf(first opening brace),
text.lastIndexOf(last closing brace) + 1). -/
def extractJson (text : List Char) : List Char :=
  jsSubstring text (jsIndexOf lbrace text) (jsLastIndexOf rbrace text + 1)

/-- Whether the second list starts with the first list. -/
def leadMatch : List Char → List Char → Bool
  | [], _ => true
  | _ :: _, [] => false
  | p :: ps, c :: cs => p == c && leadMatch ps cs

/-- JS String.prototype.includes: substring containment. -/
def strIncludes (pat : List Char) : List Char → Bool
  | [] => pat.isEmpty
  | c :: rest => leadMatch pat (c :: rest) || strIncludes pat rest

/-- JSON values, as produced by JSON.parse. Numbers are exact
rationals. -/
inductive Json where
  | null
  | bool (b : Bool)
  | num (q : ℚ)
  | str (chars : List Char)
  | arr (elems : List Json)
  | obj (fields : List (List Char × Json))

/-- JSON whitespace. -/
def isWs (c : Char) : Bool :=
  c == ' ' || c == '\t' || c == '\n' || c == '\r'

/-- Drop leading JSON whitespace. -/
def skipWs : List Char → List Char
  | [] => []
  | c :: cs => if isWs c then skipWs cs else c :: cs

/-- Value of a hexadecimal digit. -/
def hexVal (c : Char) : Option Nat :=
  if '0' ≤ c ∧ c ≤ '9' then some (c.toNat - 48)
  else if 'a' ≤ c ∧ c ≤ 'f' then some (c.toNat - 87)
  else if 'A' ≤ c ∧ c ≤ 'F' then some (c.toNat - 55)
  else none

/-- Parse the body of a JSON string literal, after the opening quote.
Returns the decoded characters and the input after the closing quote.
Escape sequences follow the JSON grammar; unescaped control
characters are rejected. -/
def parseStringBody : List Char → Option (List Char × List Char)
  | [] => none
  | c :: cs =>
    if c = '"' then some ([], cs)
    else if c = '\\' then
      match cs with
      | [] => none
      | e :: cs2 =>
        if e = '"' ∨ e = '\\' ∨ e = '/' then
          (parseStringBody cs2).map (fun r => (e :: r.1, r.2))
        else if e = 'b' then
          (parseStringBody cs2).map (fun r => (Char.ofNat 8 :: r.1, r.2))
        else if e = 'f' then
          (parseStringBody cs2).map (fun r => (Char.ofNat 12 :: r.1, r.2))
        else if e = 'n' then
          (parseStringBody cs2).map (fun r => (Char.ofNat 10 :: r.1, r.2))
        else if e = 'r' then
          (parseStringBody cs2).map (fun r => (Char.ofNat 13 :: r.1, r.2))
        else if e = 't' then
          (parseStringBody cs2).map (fun r => (Char.ofNat 9 :: r.1, r.2))
        else if e = 'u' then
          match cs2 with
          | h1 :: h2 :: h3 :: h4 :: cs3 =>
            match hexVal h1, hexVal h2, hexVal h3, hexVal h4 with
            | some a, some b, some c3, some d =>
              (parseStringBody cs3).map
                (fun r => (Char.ofNat (a * 4096 + b * 256 + c3 * 16 + d) :: r.1, r.2))
            | _, _, _, _ => none
          | _ => none
        else none
    else if c.toNat < 32 then none
    else (parseStringBody cs).map (fun r => (c :: r.1, r.2))

/-- Numeric value of a list of decimal digits. -/
def digitsVal (ds : List Char) : Nat :=
  ds.foldl (fun a c => a * 10 + (c.toNat - 48)) 0

/-- Split off the leading run of decimal digits. -/
def spanDigits (s : List Char) : List Char × List Char :=
  (s.takeWhile Char.isDigit, s.dropWhile Char.isDigit)

/-- Parse the optional fraction part of a JSON number. -/
def parseFracPart (s : List Char) : Option (List Char × List Char) :=
  match s with
  | c :: r =>
    if c = '.' then
      match spanDigits r with
      | ([], _) => none
      | (ds, r2) => some (ds, r2)
    else some ([], s)
  | [] => some ([], s)

/-- Parse the optional exponent part of a JSON number. Returns the sign
of the exponent, its digits, and the remaining input. -/
def parseExpPart (s : List Char) : Option (Bool × List Char × List Char) :=
  match s with
  | c :: r =>
    if c = 'e' ∨ c = 'E' then
      let signAndRest : Bool × List Char :=
        match r with
        | c2 :: r2 =>
          if c2 = '+' then (false, r2)
          else if c2 = '-' then (true, r2)
          else (false, r)
        | [] => (false, r)
      match spanDigits signAndRest.2 with
      | ([], _) => none
      | (ds, r3) => some (signAndRest.1, ds, r3)
    else some (false, [], s)
  | [] => some (false, [], s)

/-- Exact rational value of a JSON number from its parts: the signed
mantissa digits divided by ten to the number of fraction digits, then
scaled by ten to the signed exponent. -/
def numVal (neg : Bool) (intD fracD : List Char) (eneg : Bool) (expD : List Char) : ℚ :=
  let mant : Int := Int.ofNat (digitsVal (intD ++ fracD))
  let mant2 : Int := if neg then -mant else mant
  let e := digitsVal expD
  if eneg then mkRat mant2 (10 ^ fracD.length * 10 ^ e)
  else mkRat (mant2 * 10 ^ e) (10 ^ fracD.length)

/-- Parse a JSON number (strict JSON grammar: optional minus sign,
no leading zeros, fraction and exponent each need at least one
digit). -/
def parseNumber (s : List Char) : Option (Json × List Char) :=
  let signAndRest : Bool × List Char :=
    match s with
    | c :: r => if c = '-' then (true, r) else (false, s)
    | [] => (false, s)
  match signAndRest.2 with
  | [] => none
  | c :: r =>
    if c.isDigit then
      let intAndRest : List Char × List Char :=
        if c = '0' then ([c], r) else (c :: (spanDigits r).1, (spanDigits r).2)
      match parseFracPart intAndRest.2 with
      | none => none
      | some (fracD, s3) =>
        match parseExpPart s3 with
        | none => none
        | some (eneg, expD, s4) =>
          some (Json.num (numVal signAndRest.1 intAndRest.1 fracD eneg expD), s4)
    else none

/-- Parser modes: a single value, the elements of an array after the
opening bracket, or the members of an object after the opening
brace. -/
inductive PMode where
  | val
  | elems
  | members

/-- Parser results, one constructor per mode. -/
inductive PRes where
  | v (j : Json) (rest : List Char)
  | vs (js : List Json) (rest : List Char)
  | ms (fields : List (List Char × Json)) (rest : List Char)

/-- Fuel-indexed JSON parser implementing the JSON.parse grammar. -/
def parseCore : Nat → PMode → List Char → Option PRes
  | 0, _, _ => none
  | fuel + 1, PMode.val, s =>
    match skipWs s with
    | [] => none
    | c :: rest =>
      if c = 'n' then
        match rest with
        | 'u' :: 'l' :: 'l' :: r => some (.v .null r)
        | _ => none
      else if c = 't' then
        match rest with
        | 'r' :: 'u' :: 'e' :: r => some (.v (.bool true) r)
        | _ => none
      else if c = 'f' then
        match rest with
        | 'a' :: 'l' :: 's' :: 'e' :: r => some (.v (.bool false) r)
        | _ => none
      else if c = '"' then
        match parseStringBody rest with
        | some (cs, r) => some (.v (.str cs) r)
        | none => none
      else if c = lbrace then
        match skipWs rest with
        | c2 :: r2 =>
          if c2 = rbrace then some (.v (.obj []) r2)
          else
            match parseCore fuel PMode.members rest with
            | some (.ms fs r3) => some (.v (.obj fs) r3)
            | _ => none
        | [] => none
      else if c = '[' then
        match skipWs rest with
        | c2 :: r2 =>
          if c2 = ']' then some (.v (.arr []) r2)
          else
            match parseCore fuel PMode.elems rest with
            | some (.vs es r3) => some (.v (.arr es) r3)
            | _ => none
        | [] => none
      else
        match parseNumber (c :: rest) with
        | some (j, r) => some (.v j r)
        | none => none
  | fuel + 1, PMode.elems, s =>
    match parseCore fuel PMode.val s with
    | some (.v v1 r) =>
      match skipWs r with
      | c :: r2 =>
        if c = ',' then
          match parseCore fuel PMode.elems r2 with
          | some (.vs es r3) => some (.vs (v1 :: es) r3)
          | _ => none
        else if c = ']' then some (.vs [v1] r2)
        else none
      | [] => none
    | _ => none
  | fuel + 1, PMode.members, s =>
    match skipWs s with
    | c :: r =>
      if c = '"' then
        match parseStringBody r with
        | some (key, r2) =>
          match skipWs r2 with
          | c2 :: r3 =>
            if c2 = ':' then
              match parseCore fuel PMode.val r3 with
              | some (.v v1 r4) =>
                match skipWs r4 with
                | c3 :: r5 =>
                  if c3 = ',' then
                    match parseCore fuel PMode.members r5 with
                    | some (.ms fs r6) => some (.ms ((key, v1) :: fs) r6)
                    | _ => none
                  else if c3 = rbrace then some (.ms [(key, v1)] r5)
                  else none
                | [] => none
              | _ => none
            else none
          | [] => none
        | none => none
      else none
    | [] => none

/-- Parse a single JSON value with enough fuel for the whole input. -/
def parseValue (fuel : Nat) (s : List Char) : Option (Json × List Char) :=
  match parseCore fuel PMode.val s with
  | some (.v j r) => some (j, r)
  | _ => none

/-- JSON.parse: parse one value and require that only whitespace
follows it. Returns none where JSON.parse would throw a
SyntaxError. -/
def parseJson (s : List Char) : Option Json :=
  match parseValue (2 * s.length + 2) s with
  | some (v, r) => if skipWs r = [] then some v else none
  | none => none

/-- Whether a parsed JSON value is an object carrying the given key. -/
def hasKey (v : Json) (k : String) : Bool :=
  match v with
  | Json.obj fields => fields.any (fun f => f.1 == k.data)
  | _ => false

/-- Snackbar severity levels used by the App component. -/
inductive Severity where
  | success
  | error
  | warning
  | info
  deriving DecidableEq

/-- A selected source image: MIME type plus raw content (a File in
the browser). -/
structure SourceImage where
  mime : String
  content : String

/-- The session state held by the App component: the two selected
images, their object URLs, the stored comparison result, the loading
flag, and the snackbar notification state. The parsed result is kept
as the raw JSON value, exactly as JSON.parse returns it. -/
structure SessionState where
  image1 : Option SourceImage
  image2 : Option SourceImage
  image1URL : Option String
  image2URL : Option String
  result : Option Json
  loading : Bool
  snackbarOpen : Bool
  snackbarMessage : String
  snackbarSeverity : Severity

/-- Environment of one submission: either the model call resolves with
a reply text, or the encoding or the call rejects with an error whose
message is given. -/
inductive RequestOutcome where
  | reply (text : String)
  | failure (message : String)

/-- Snackbar message of the missing-input branch (App.tsx line 108). -/
def missingInputMessage : String := "Please upload both images."

/-- Snackbar message for a 503 overload failure (App.tsx line 163). -/
def overloadedMessage : String :=
  "The model is currently overloaded. Please try again later."

/-- Snackbar message for every other failure (App.tsx line 165). -/
def genericErrorMessage : String :=
  "An error occurred while processing the images."

/-- The state updates performed before the request is issued
(App.tsx lines 114 and 115): set the loading flag and clear the
stored result. -/
def beginSubmit (s : SessionState) : SessionState :=
  { s with loading := true, result := none }

/-- The catch block of handleSubmit (App.tsx lines 160 to 168): pick
the overloaded message when the error message contains 503, otherwise
the generic message, and open an error snackbar. -/
def applyCatch (s : SessionState) (errMessage : String) : SessionState :=
  { s with
    snackbarMessage :=
      if strIncludes ("503".data) errMessage.data then overloadedMessage
      else genericErrorMessage,
    snackbarSeverity := Severity.error,
    snackbarOpen := true }

/-- The submit handler (App.tsx lines 106 to 172). Returns the next
session state together with a flag telling whether the model request
was issued. The message of a JSON.parse SyntaxError is runtime
dependent and is passed in as parseMsg. -/
def handleSubmit (s : SessionState) (env : RequestOutcome) (parseMsg : String) :
    SessionState × Bool :=
  match s.image1, s.image2 with
  | some _, some _ =>
    let s1 := beginSubmit s
    let s2 :=
      match env with
      | RequestOutcome.reply text =>
        match parseJson (extractJson text.data) with
        | some v => { s1 with result := some v }
        | none => applyCatch s1 parseMsg
      | RequestOutcome.failure m => applyCatch s1 m
    ({ s2 with loading := false }, true)
  | _, _ =>
    ({ s with
        snackbarMessage := missingInputMessage,
        snackbarSeverity := Severity.warning,
        snackbarOpen := true }, false)

/-- A bounding box [x, y, width, height] in percentage units. -/
abbrev Box := ℚ × ℚ × ℚ × ℚ

/-- One reported difference: a description and one bounding box per
image. A missing or undefined entry is modelled as none. -/
structure Difference where
  description : String
  boundingBox : List (Option Box)

/-- The boundingBox[imageIndex] lookup: none when the index is out of
range or the entry itself is undefined. -/
def getBox (d : Difference) (i : Nat) : Option Box :=
  match d.boundingBox[i]? with
  | some (some b) => some b
  | _ => none

/-- A loaded image: source URL and natural pixel dimensions. -/
structure Img where
  src : String
  width : ℚ
  height : ℚ

/-- A paint operation on the canvas: drawing an image at a position, or
filling a circle of a given radius and color. -/
inductive DrawOp where
  | image (src : String) (dx dy : ℚ)
  | circle (cx cy radius : ℚ) (color : String)

/-- Canvas state: current dimensions and the paint operations applied
since the bitmap was last reset. -/
structure CanvasState where
  width : ℚ
  height : ℚ
  ops : List DrawOp

/-- Assigning canvas.width resets the canvas bitmap. -/
def setCanvasWidth (c : CanvasState) (w : ℚ) : CanvasState :=
  { width := w, height := c.height, ops := [] }

/-- Assigning canvas.height resets the canvas bitmap. -/
def setCanvasHeight (c : CanvasState) (h : ℚ) : CanvasState :=
  { width := c.width, height := h, ops := [] }

/-- ctx.drawImage. -/
def drawImage (c : CanvasState) (src : String) (dx dy : ℚ) : CanvasState :=
  { c with ops := c.ops ++ [DrawOp.image src dx dy] }

/-- ctx.beginPath, ctx.arc, ctx.fill: one filled circle. -/
def fillCircle (c : CanvasState) (cx cy r : ℚ) (color : String) : CanvasState :=
  { c with ops := c.ops ++ [DrawOp.circle cx cy r color] }

/-- The loop body of drawDifferences (App.tsx lines 63 to 73): skip a
difference without a box for this image, otherwise fill a red circle
of radius 10 at the center of the box, converted from percentages to
pixels using the current canvas dimensions. -/
def drawStep (i : Nat) (c : CanvasState) (diff : Difference) : CanvasState :=
  match getBox diff i with
  | some (x, y, w, h) =>
    fillCircle c ((x / 100 + w / 100 / 2) * c.width)
      ((y / 100 + h / 100 / 2) * c.height) 10 "red"
  | none => c

/-- The drawDifferences renderer (App.tsx lines 48 to 76), modelling
the onload callback body once the image has decoded: resize the canvas
to the natural image dimensions (which resets its contents), draw the
image at the origin, then draw one marker per difference. -/
def drawDifferences (canvas : CanvasState) (img : Img)
    (differences : List Difference) (imageIndex : Nat) : CanvasState :=
  let c1 := setCanvasWidth canvas img.width
  let c2 := setCanvasHeight c1 img.height
  let c3 := drawImage c2 img.src 0 0
  differences.foldl (drawStep imageIndex) c3

/-- The marker operation contributed by one difference, if any, given
the canvas dimensions. -/
def markerOp (w h : ℚ) (i : Nat) (d : Difference) : Option DrawOp :=
  match getBox d i with
  | some (bx, by2, bw, bh) =>
    some (DrawOp.circle ((bx / 100 + bw / 100 / 2) * w)
      ((by2 / 100 + bh / 100 / 2) * h) 10 "red")
  | none => none

/-- A session state with both images selected, used for concrete
evaluations. -/
def exampleState : SessionState :=
  { image1 := some { mime := "image/png", content := "a" }
    image2 := some { mime := "image/jpeg", content := "b" }
    image1URL := some "blob:1"
    image2URL := some "blob:2"
    result := none
    loading := false
    snackbarOpen := false
    snackbarMessage := ""
    snackbarSeverity := Severity.info }

/-- A session state with no image selected. -/
def emptyState : SessionState :=
  { image1 := none
    image2 := none
    image1URL := none
    image2URL := none
    result := none
    loading := false
    snackbarOpen := false
    snackbarMessage := ""
    snackbarSeverity := Severity.info }

/-- Inner text of a well-formed reply object, between its braces. -/
def objMid : List Char := "\"summary\":\"s\",\"differences\":[]".data

/-- A well-formed reply object text, braces included. -/
def objText : List Char := lbrace :: (objMid ++ [rbrace])

/-- The JSON value of objText. -/
def objVal : Json :=
  Json.obj [("summary".data, Json.str ("s".data)),
    ("differences".data, Json.arr [])]

/-- Prose that itself contains a brace pair. -/
def bracedProse : List Char := "Note \x7b see \x7d ".data

/-- A difference with no bounding box entries at all. -/
def dMissing : Difference := { description := "missing", boundingBox := [] }

/-- A difference with a box for both images. -/
def dPresent : Difference :=
  { description := "present",
    boundingBox := [some (20, 30, 10, 10), some (40, 10, 2, 2)] }

/-- A small canvas for concrete evaluations. -/
def canvas0 : CanvasState := { width := 1, height := 1, ops := [] }

/-- A 200 by 100 image for concrete evaluations. -/
def img0 : Img := { src := "u", width := 200, height := 100 }

/-- A character that occurs nowhere in a list has no first index. -/
theorem firstIdx_eq_none (c : Char) (s : List Char) (h : c ∉ s) :
    firstIdx c s = none := by
  induction s with
  | nil => rfl
  | cons a as ih =>
    simp only [List.mem_cons, not_or] at h
    simp [firstIdx, Ne.symm h.1, ih h.2]

/-- First index in an append whose left part avoids the character. -/
theorem firstIdx_append_of_not_mem (c : Char) (p r : List Char) (hp : c ∉ p) :
    firstIdx c (p ++ r) = (firstIdx c r).map (· + p.length) := by
  induction p with
  | nil =>
    simp only [List.nil_append, List.length_nil]
    cases h : firstIdx c r <;> simp
  | cons a as ih =>
    simp only [List.mem_cons, not_or] at hp
    rw [List.cons_append]
    simp only [firstIdx, if_neg (Ne.symm hp.1), ih hp.2]
    cases firstIdx c r <;> simp <;> omega

/-- The JS substring of an append, cut exactly around the middle
part. -/
theorem jsSubstring_middle (u v w : List Char) :
    jsSubstring (u ++ (v ++ w)) (u.length : Int) ((u.length : Int) + (v.length : Int)) = v := by
  have h1 : (u.length : Int).toNat = u.length := by omega
  have h2 : ((u.length : Int) + (v.length : Int)).toNat = u.length + v.length := by omega
  have hlen : (u ++ (v ++ w)).length = u.length + (v.length + w.length) := by
    simp
  simp only [jsSubstring, h1, h2, hlen]
  have e1 : min u.length (u.length + (v.length + w.length)) = u.length := by omega
  have e2 : min (u.length + v.length) (u.length + (v.length + w.length))
      = u.length + v.length := by omega
  rw [e1, e2]
  have e3 : min u.length (u.length + v.length) = u.length := by omega
  have e4 : max u.length (u.length + v.length) = u.length + v.length := by omega
  rw [e3, e4]
  have e5 : u.length + v.length - u.length = v.length := by omega
  rw [e5, List.drop_left]
  exact List.take_left v w

/-- Extraction on a reply made of an exact JSON object text between
prose with no opening brace before and no closing brace after: the
substring is exactly the object text. -/
theorem extractJson_embed (p m q : List Char) (hp : lbrace ∉ p) (hq : rbrace ∉ q) :
    extractJson (p ++ (lbrace :: (m ++ [rbrace])) ++ q) = lbrace :: (m ++ [rbrace]) := by
  have hassoc : p ++ (lbrace :: (m ++ [rbrace])) ++ q
      = p ++ ((lbrace :: (m ++ [rbrace])) ++ q) := by
    simp
  have hidx : firstIdx lbrace (p ++ ((lbrace :: (m ++ [rbrace])) ++ q)) = some p.length := by
    rw [firstIdx_append_of_not_mem lbrace p _ hp]
    have h0 : firstIdx lbrace ((lbrace :: (m ++ [rbrace])) ++ q) = some 0 := by
      simp [firstIdx]
    rw [h0]
    simp
  have hqrev : rbrace ∉ q.reverse := by simpa using hq
  have hrev : (p ++ ((lbrace :: (m ++ [rbrace])) ++ q)).reverse
      = q.reverse ++ (rbrace :: (m.reverse ++ (lbrace :: p.reverse))) := by
    simp
  have hlast : firstIdx rbrace ((p ++ ((lbrace :: (m ++ [rbrace])) ++ q)).reverse)
      = some q.length := by
    rw [hrev, firstIdx_append_of_not_mem rbrace q.reverse _ hqrev]
    have h0 : firstIdx rbrace (rbrace :: (m.reverse ++ (lbrace :: p.reverse)))
        = some 0 := by
      simp [firstIdx]
    rw [h0]
    simp
  have hlen : (p ++ ((lbrace :: (m ++ [rbrace])) ++ q)).length
      = p.length + (m.length + 2) + q.length := by
    simp
    omega
  have hlast2 : lastIdx rbrace (p ++ ((lbrace :: (m ++ [rbrace])) ++ q))
      = some (p.length + (m.length + 1)) := by
    unfold lastIdx
    rw [hlast, hlen]
    simp
    omega
  have hjidx : jsIndexOf lbrace (p ++ ((lbrace :: (m ++ [rbrace])) ++ q))
      = (p.length : Int) := by
    unfold jsIndexOf
    rw [hidx]
  have hjli : jsLastIndexOf rbrace (p ++ ((lbrace :: (m ++ [rbrace])) ++ q))
      = ((p.length + (m.length + 1) : Nat) : Int) := by
    unfold jsLastIndexOf
    rw [hlast2]
  rw [hassoc]
  unfold extractJson
  rw [hjidx, hjli]
  have harg : ((p.length + (m.length + 1) : Nat) : Int) + 1
      = (p.length : Int) + (((lbrace :: (m ++ [rbrace])).length : Nat) : Int) := by
    have hl2 : (lbrace :: (m ++ [rbrace])).length = m.length + 2 := by
      simp
    rw [hl2]
    push_cast
    omega
  rw [harg]
  exact jsSubstring_middle p (lbrace :: (m ++ [rbrace])) q

/-- A reply with no brace at all extracts to the empty string. -/
theorem extractJson_of_no_braces (t : List Char)
    (hl : lbrace ∉ t) (hr : rbrace ∉ t) :
    extractJson t = [] := by
  have h1 : firstIdx lbrace t = none := firstIdx_eq_none _ _ hl
  have h2 : firstIdx rbrace t.reverse = none := by
    refine firstIdx_eq_none _ _ ?_
    simpa using hr
  unfold extractJson jsIndexOf jsLastIndexOf lastIdx
  rw [h1, h2]
  simp [jsSubstring]

/-- The marker loop appends exactly one marker operation per
difference that has a box for this image, and leaves the canvas
dimensions unchanged. -/
theorem foldl_drawStep (i : Nat) (ds : List Difference) (c : CanvasState) :
    ds.foldl (drawStep i) c
      = { width := c.width, height := c.height,
          ops := c.ops ++ ds.filterMap (markerOp c.width c.height i) } := by
  induction ds generalizing c with
  | nil => simp
  | cons d ds ih =>
    rw [List.foldl_cons, ih]
    cases hb : getBox d i with
    | none =>
      simp [drawStep, markerOp, hb]
    | some b =>
      obtain ⟨x, y, w, h⟩ := b
      simp [drawStep, markerOp, hb, fillCircle]

/-- Closed form of the renderer: the canvas takes the image
dimensions, and its operations are the base image draw followed by
one marker per difference carrying a box for this image. -/
theorem drawDifferences_eq (c : CanvasState) (img : Img)
    (ds : List Difference) (i : Nat) :
    drawDifferences c img ds i
      = { width := img.width, height := img.height,
          ops := DrawOp.image img.src 0 0
            :: ds.filterMap (markerOp img.width img.height i) } := by
  unfold drawDifferences setCanvasWidth setCanvasHeight drawImage
  rw [foldl_drawStep]
  simp

/-- C6: rendering is idempotent and restartable. Two successive
invocations of drawDifferences on the same surface with different
images, difference lists or indices leave exactly the state the second
invocation alone produces from any starting surface: the resize resets
the bitmap, so nothing accumulates from the first invocation. -/
theorem redraw_replaces_previous_render (c c0 : CanvasState) (imgA imgB : Img)
    (dsA dsB : List Difference) (iA iB : Nat) :
    drawDifferences (drawDifferences c imgA dsA iA) imgB dsB iB
      = drawDifferences c0 imgB dsB iB := by
  rw [drawDifferences_eq, drawDifferences_eq]

/-- C4: for a difference whose selected box is [x, y, width, height],
the marker is a circle centered at
((x/100 + (width/100)/2) * canvasWidth, (y/100 + (height/100)/2) * canvasHeight),
the canvas having been resized to the image dimensions; in particular a
box [20, 30, 10, 10] on a 200 by 100 canvas puts the center at
(50, 35). -/
theorem marker_center_formula (c : CanvasState) (img : Img) (d : Difference)
    (i : Nat) (x y w h : ℚ) (hb : getBox d i = some (x, y, w, h)) :
    (drawDifferences c img [d] i).ops
      = [DrawOp.image img.src 0 0,
         DrawOp.circle ((x / 100 + w / 100 / 2) * img.width)
           ((y / 100 + h / 100 / 2) * img.height) 10 "red"]
    ∧ (drawDifferences c { src := img.src, width := 200, height := 100 }
        [{ description := "d",
           boundingBox := [some (20, 30, 10, 10), some (20, 30, 10, 10)] }] 0).ops
      = [DrawOp.image img.src 0 0, DrawOp.circle 50 35 10 "red"] := by
  constructor
  · rw [drawDifferences_eq]
    simp [markerOp, hb]
  · rw [drawDifferences_eq]
    simp [markerOp, getBox]
    norm_num

/-- C4 witness at a concrete difference and image. -/
theorem marker_center_formula_witness :
    (drawDifferences canvas0 img0 [dPresent] 0).ops
      = [DrawOp.image img0.src 0 0,
         DrawOp.circle ((20 / 100 + 10 / 100 / 2) * img0.width)
           ((30 / 100 + 10 / 100 / 2) * img0.height) 10 "red"] :=
  (marker_center_formula canvas0 img0 dPresent 0 20 30 10 10 (by rfl)).1

/-- C5: a difference without a box for this image contributes nothing
and is skipped, while every remaining difference is still rendered;
the render as a whole always produces a well-defined surface. -/
theorem missing_box_skipped (c : CanvasState) (img : Img)
    (ds1 ds2 : List Difference) (d : Difference) (i : Nat)
    (hd : getBox d i = none) :
    drawDifferences c img (ds1 ++ d :: ds2) i = drawDifferences c img (ds1 ++ ds2) i
    ∧ (drawDifferences c img (ds1 ++ d :: ds2) i).ops
        = DrawOp.image img.src 0 0
          :: (ds1 ++ ds2).filterMap (markerOp img.width img.height i) := by
  have hnone : markerOp img.width img.height i d = none := by
    simp [markerOp, hd]
  constructor
  · rw [drawDifferences_eq, drawDifferences_eq]
    simp [List.filterMap_append, hnone]
  · rw [drawDifferences_eq]
    simp [List.filterMap_append, hnone]

/-- C5 witness: a difference with no boxes is skipped and the other
difference still renders. -/
theorem missing_box_skipped_witness :
    drawDifferences canvas0 img0 ([] ++ dMissing :: [dPresent]) 0
      = drawDifferences canvas0 img0 ([] ++ [dPresent]) 0 :=
  (missing_box_skipped canvas0 img0 [] [dPresent] dMissing 0 (by rfl)).1

/-- C3: with zero or one image selected, handleSubmit opens a warning
snackbar with the missing-input message and issues no request; the
request is issued exactly when both images are present. -/
theorem no_call_without_both_images (s : SessionState) (env : RequestOutcome)
    (pm : String) :
    ((s.image1 = none ∨ s.image2 = none) →
      (handleSubmit s env pm).2 = false
      ∧ ((handleSubmit s env pm).1).snackbarOpen = true
      ∧ ((handleSubmit s env pm).1).snackbarSeverity = Severity.warning
      ∧ ((handleSubmit s env pm).1).snackbarMessage = missingInputMessage)
    ∧ ((handleSubmit s env pm).2 = true ↔ s.image1 ≠ none ∧ s.image2 ≠ none) := by
  cases h1 : s.image1 with
  | none => simp [handleSubmit, h1]
  | some i1 =>
    cases h2 : s.image2 with
    | none => simp [handleSubmit, h1, h2]
    | some i2 => simp [handleSubmit, h1, h2]

/-- C3 witness: submitting with no image selected issues no request
and shows the missing-input message. -/
theorem no_call_without_both_images_witness :
    (handleSubmit emptyState (RequestOutcome.reply "x") "").2 = false
    ∧ ((handleSubmit emptyState (RequestOutcome.reply "x") "").1).snackbarMessage
        = missingInputMessage :=
  ⟨((no_call_without_both_images emptyState (RequestOutcome.reply "x") "").1
      (Or.inl rfl)).1,
   ((no_call_without_both_images emptyState (RequestOutcome.reply "x") "").1
      (Or.inl rfl)).2.2.2⟩

/-- C7: once a request starts (both images present), the loading flag
is false again after every outcome: success, parse failure, or
transport failure. -/
theorem loading_cleared_in_every_outcome (s : SessionState)
    (i1 i2 : SourceImage) (env : RequestOutcome) (pm : String)
    (h1 : s.image1 = some i1) (h2 : s.image2 = some i2) :
    ((handleSubmit s env pm).1).loading = false := by
  cases env with
  | reply text =>
    cases hp : parseJson (extractJson text.data) with
    | none => simp [handleSubmit, h1, h2, hp, applyCatch, beginSubmit]
    | some v => simp [handleSubmit, h1, h2, hp, beginSubmit]
  | failure m => simp [handleSubmit, h1, h2, applyCatch, beginSubmit]

/-- C7 witness at a concrete failing reply. -/
theorem loading_cleared_witness :
    ((handleSubmit exampleState (RequestOutcome.reply "no json") "x").1).loading
      = false :=
  loading_cleared_in_every_outcome exampleState
    { mime := "image/png", content := "a" } { mime := "image/jpeg", content := "b" }
    (RequestOutcome.reply "no json") "x" rfl rfl

/-- C8: a failure whose message contains 503 produces the overloaded
message, any other failure message produces the generic message, and
the two user-facing messages are distinct. -/
theorem overloaded_message_distinct (s : SessionState) (i1 i2 : SourceImage)
    (m pm : String) (h1 : s.image1 = some i1) (h2 : s.image2 = some i2) :
    (strIncludes ("503".data) m.data = true →
      ((handleSubmit s (RequestOutcome.failure m) pm).1).snackbarMessage
        = overloadedMessage)
    ∧ (strIncludes ("503".data) m.data = false →
      ((handleSubmit s (RequestOutcome.failure m) pm).1).snackbarMessage
        = genericErrorMessage)
    ∧ overloadedMessage ≠ genericErrorMessage := by
  refine ⟨fun hm => ?_, fun hm => ?_, by decide⟩
  · simp [handleSubmit, h1, h2, applyCatch, beginSubmit, hm]
  · simp [handleSubmit, h1, h2, applyCatch, beginSubmit, hm]

/-- C8 witness: a 503 failure shows the overloaded message, which
differs from the generic one. -/
theorem overloaded_message_distinct_witness :
    ((handleSubmit exampleState (RequestOutcome.failure "HTTP 503") "").1).snackbarMessage
      = overloadedMessage
    ∧ overloadedMessage ≠ genericErrorMessage :=
  ⟨(overloaded_message_distinct exampleState
      { mime := "image/png", content := "a" } { mime := "image/jpeg", content := "b" }
      "HTTP 503" "" rfl rfl).1 (by decide),
   (overloaded_message_distinct exampleState
      { mime := "image/png", content := "a" } { mime := "image/jpeg", content := "b" }
      "HTTP 503" "" rfl rfl).2.2⟩

/-- C9: no schema validation happens after extraction: whatever JSON
value the brace-delimited substring parses to is stored as the result,
with no error notification, whether or not it carries the summary and
differences fields. -/
theorem parsed_value_accepted_without_validation (s : SessionState)
    (i1 i2 : SourceImage) (text pm : String) (v : Json)
    (h1 : s.image1 = some i1) (h2 : s.image2 = some i2)
    (hv : parseJson (extractJson text.data) = some v) :
    ((handleSubmit s (RequestOutcome.reply text) pm).1).result = some v
    ∧ ((handleSubmit s (RequestOutcome.reply text) pm).1).snackbarOpen
        = s.snackbarOpen := by
  constructor <;> simp [handleSubmit, h1, h2, hv, beginSubmit]

/-- C9 witness: an empty object, which lacks both required fields, is
accepted and stored as the result. -/
theorem parsed_value_accepted_witness :
    ((handleSubmit exampleState (RequestOutcome.reply "ab\x7b\x7dcd") "").1).result
      = some (Json.obj []) :=
  (parsed_value_accepted_without_validation exampleState
    { mime := "image/png", content := "a" } { mime := "image/jpeg", content := "b" }
    "ab\x7b\x7dcd" "" (Json.obj []) rfl rfl rfl).1

/-- C10: every submission with both images present clears the stored
result before the request is issued, and after any failure, transport
or parse, the session holds no result. -/
theorem result_cleared_on_submit (s : SessionState) (i1 i2 : SourceImage)
    (pm : String) (h1 : s.image1 = some i1) (h2 : s.image2 = some i2) :
    (beginSubmit s).result = none
    ∧ (∀ m : String,
        ((handleSubmit s (RequestOutcome.failure m) pm).1).result = none)
    ∧ (∀ text : String, parseJson (extractJson text.data) = none →
        ((handleSubmit s (RequestOutcome.reply text) pm).1).result = none) := by
  refine ⟨rfl, fun m => ?_, fun text hp => ?_⟩
  · simp [handleSubmit, h1, h2, applyCatch, beginSubmit]
  · simp [handleSubmit, h1, h2, hp, applyCatch, beginSubmit]

/-- C10 witness: a transport failure leaves no stored result even
though the prior state is cleared. -/
theorem result_cleared_witness :
    ((handleSubmit exampleState (RequestOutcome.failure "boom") "").1).result
      = none :=
  ((result_cleared_on_submit exampleState
    { mime := "image/png", content := "a" } { mime := "image/jpeg", content := "b" }
    "" rfl rfl).2.1) "boom"

/-- C1 counterexample: a reply whose surrounding prose itself contains
a brace pair. The embedded object is valid JSON with both required
fields, yet the extraction does not return it, and parsing the
extracted substring fails. -/
theorem brace_in_prose_extraction_fails :
    parseJson objText = some objVal
    ∧ hasKey objVal "summary" = true
    ∧ hasKey objVal "differences" = true
    ∧ extractJson (bracedProse ++ objText ++ []) ≠ objText
    ∧ parseJson (extractJson (bracedProse ++ objText ++ [])) = none :=
  ⟨rfl, rfl, rfl, by decide, rfl⟩

/-- C1 (amended): for a reply made of a valid JSON object text
surrounded by prose whose leading part contains no opening brace and
whose trailing part contains no closing brace, the extraction returns
exactly the object text and parsing it succeeds with the object
value. -/
theorem extract_parses_object_between_brace_free_prose (p m q : List Char)
    (v : Json) (hp : lbrace ∉ p) (hq : rbrace ∉ q)
    (hparse : parseJson (lbrace :: (m ++ [rbrace])) = some v)
    (hsum : hasKey v "summary" = true)
    (hdiff : hasKey v "differences" = true) :
    extractJson (p ++ (lbrace :: (m ++ [rbrace])) ++ q) = lbrace :: (m ++ [rbrace])
    ∧ parseJson (extractJson (p ++ (lbrace :: (m ++ [rbrace])) ++ q)) = some v := by
  have he := extractJson_embed p m q hp hq
  exact ⟨he, by rw [he, hparse]⟩

/-- C1 witness: concrete prose around the object text. -/
theorem extract_parses_object_witness :
    extractJson ("Reply: ".data ++ (lbrace :: (objMid ++ [rbrace])) ++ " end".data)
      = lbrace :: (objMid ++ [rbrace])
    ∧ parseJson
        (extractJson ("Reply: ".data ++ (lbrace :: (objMid ++ [rbrace])) ++ " end".data))
      = some objVal :=
  extract_parses_object_between_brace_free_prose "Reply: ".data objMid " end".data
    objVal (by decide) (by decide) rfl rfl rfl

/-- C2 counterexample: a reply with unbalanced braces whose extracted
substring still parses. On the reply of the digit five followed by an
opening brace, the JS substring semantics swap the out-of-order cut
points, the extraction yields the digit five, parsing succeeds, and a
result is stored with no error notification. -/
theorem unbalanced_braces_can_still_parse :
    lbrace ∈ ("5\x7b".data) ∧ rbrace ∉ ("5\x7b".data)
    ∧ ((handleSubmit exampleState (RequestOutcome.reply "5\x7b") "m").1).result
        = some (Json.num 5)
    ∧ ((handleSubmit exampleState (RequestOutcome.reply "5\x7b") "m").1).snackbarOpen
        = false :=
  ⟨by decide, by decide, rfl, rfl⟩

/-- C2 (amended): a reply containing no brace at all extracts to the
empty string, which never parses, so the attempt fails: the error
snackbar opens with the generic message, no result is stored, the
loading flag is cleared, and the session state stays well defined. -/
theorem no_braces_reply_fails (s : SessionState) (i1 i2 : SourceImage)
    (text pm : String)
    (h1 : s.image1 = some i1) (h2 : s.image2 = some i2)
    (hl : lbrace ∉ text.data) (hr : rbrace ∉ text.data)
    (hpm : strIncludes ("503".data) pm.data = false) :
    parseJson (extractJson text.data) = none
    ∧ ((handleSubmit s (RequestOutcome.reply text) pm).1).result = none
    ∧ ((handleSubmit s (RequestOutcome.reply text) pm).1).loading = false
    ∧ ((handleSubmit s (RequestOutcome.reply text) pm).1).snackbarOpen = true
    ∧ ((handleSubmit s (RequestOutcome.reply text) pm).1).snackbarSeverity
        = Severity.error
    ∧ ((handleSubmit s (RequestOutcome.reply text) pm).1).snackbarMessage
        = genericErrorMessage := by
  have hp : parseJson (extractJson text.data) = none := by
    rw [extractJson_of_no_braces _ hl hr]
    rfl
  refine ⟨hp, ?_, ?_, ?_, ?_, ?_⟩ <;>
    simp [handleSubmit, h1, h2, hp, applyCatch, beginSubmit, hpm]

/-- C2 witness: a concrete brace-free reply fails with the generic
message. -/
theorem no_braces_reply_fails_witness :
    parseJson (extractJson ("no json here".data)) = none
    ∧ ((handleSubmit exampleState (RequestOutcome.reply "no json here")
        "Unexpected end of input").1).snackbarMessage = genericErrorMessage :=
  ⟨(no_braces_reply_fails exampleState
      { mime := "image/png", content := "a" } { mime := "image/jpeg", content := "b" }
      "no json here" "Unexpected end of input" rfl rfl (by decide) (by decide)
      (by decide)).1,
   (no_braces_reply_fails exampleState
      { mime := "image/png", content := "a" } { mime := "image/jpeg", content := "b" }
      "no json here" "Unexpected end of input" rfl rfl (by decide) (by decide)
      (by decide)).2.2.2.2.2⟩
